import Mathlib

/-!
Shallow embedding of the unemployment-analysis Train → Persist → Infer pipeline.

Sources embedded:
- train_model.py : data cleaning, ordinal maps, severity target, label
  encoding, feature assembly, bundle contents.
- app.py : asset loading, selection menus, inference-side vector assembly
  (x_in) and prediction.

A CSV cell is either missing (pandas NaN) or a string; a Record is one row
of the survey file with its nine header fields.
-/

abbrev Cell := Option String

structure Record where
  age_group : Cell
  education_level : Cell
  employment_status : Cell
  gender : Cell
  skill_alignment : Cell
  skill_training : Cell
  job_seeking_status : Cell
  issue_severity_perception : Cell
  proposed_solution : Cell
deriving DecidableEq

/-- df.dropna(how=..all..): a row is dropped when every field is missing. -/
def Record.allMissing (r : Record) : Bool :=
  r.age_group.isNone && r.education_level.isNone && r.employment_status.isNone &&
  r.gender.isNone && r.skill_alignment.isNone && r.skill_training.isNone &&
  r.job_seeking_status.isNone && r.issue_severity_perception.isNone &&
  r.proposed_solution.isNone

/-- train_model.py line 11: df = df.dropna(how=..all..). -/
def dropAllEmpty (rows : List Record) : List Record :=
  rows.filter (fun r => !r.allMissing)

/-- Python dict lookup on a literal dict, as an association list. -/
def lookupMap : List (String × Nat) → String → Option Nat
  | [], _ => none
  | (k, v) :: rest, s => if s = k then some v else lookupMap rest s

/-- train_model.py line 17. -/
def age_map : List (String × Nat) := [("18–24", 1), ("25–34", 2)]

/-- train_model.py line 18. -/
def edu_map : List (String × Nat) :=
  [("School level", 1), ("Undergraduate", 2), ("Postgraduate", 3)]

/-- train_model.py line 19. -/
def emp_map : List (String × Nat) :=
  [("Student", 1), ("Employed", 2), ("Unemployed", 3)]

/-- train_model.py line 27. -/
def severity_map : List (String × Nat) := [("Yes", 5), ("Maybe", 3), ("No", 1)]

/-- The pandas idiom series.map(m).fillna(d): a missing cell, or a cell whose
string is not a key of m, yields the default d. -/
def mapFillna (m : List (String × Nat)) (d : Nat) (c : Cell) : Nat :=
  (c.bind (fun s => lookupMap m s)).getD d

/-- The three ordinal fields of the training pipeline. -/
inductive OrdinalField
  | age_group
  | education_level
  | employment_status
deriving DecidableEq

/-- The static map of each ordinal field (train_model.py lines 17-19). -/
def OrdinalField.toMap : OrdinalField → List (String × Nat)
  | .age_group => age_map
  | .education_level => edu_map
  | .employment_status => emp_map

/-- The fillna default of each ordinal field (train_model.py lines 22-24). -/
def OrdinalField.defaultCode : OrdinalField → Nat
  | .age_group => 1
  | .education_level => 2
  | .employment_status => 1

/-- The raw cell of an ordinal field in a record. -/
def OrdinalField.cell : OrdinalField → Record → Cell
  | .age_group, r => r.age_group
  | .education_level, r => r.education_level
  | .employment_status, r => r.employment_status

/-- train_model.py lines 22-24: df[col].map(field_map).fillna(default). -/
def mapOrdinal (f : OrdinalField) (c : Cell) : Nat :=
  mapFillna f.toMap f.defaultCode c

/-- train_model.py line 28: the target score with mid-range default 3. -/
def target_score (r : Record) : Nat :=
  mapFillna severity_map 3 r.issue_severity_perception

/-- The four free-form categorical fields (train_model.py line 31). -/
inductive CatField
  | gender
  | skill_alignment
  | skill_training
  | job_seeking_status
deriving DecidableEq

/-- The raw cell of a categorical field in a record. -/
def CatField.cell : CatField → Record → Cell
  | .gender, r => r.gender
  | .skill_alignment, r => r.skill_alignment
  | .skill_training, r => r.skill_training
  | .job_seeking_status, r => r.job_seeking_status

/-- Drop leading whitespace characters from a character list. -/
def dropLeadingWs : List Char → List Char
  | [] => []
  | c :: rest => if c.isWhitespace then dropLeadingWs rest else c :: rest

/-- str.strip(): remove whitespace from both ends of a string. -/
def stripStr (s : String) : String :=
  ⟨(dropLeadingWs (dropLeadingWs s.data).reverse).reverse⟩

/-- train_model.py line 36, the normalization astype(str).str.strip():
a missing cell becomes the literal string "nan" (str of NaN), a present
cell is stripped of surrounding whitespace. -/
def cleanCell : Cell → String
  | none => "nan"
  | some s => stripStr s

/-- Errors the inference pipeline can raise: a dict KeyError from direct
indexing of an ordinal map, or the unknown-category error an encoder raises
on a label outside its fitted class list. -/
inductive InferenceError
  | keyError
  | unknownCategoryError
deriving DecidableEq

instance {ε α : Type _} [DecidableEq ε] [DecidableEq α] : DecidableEq (Except ε α)
  | .error e, .error f => decidable_of_iff (e = f) (by simp)
  | .error _, .ok _ => isFalse (by simp)
  | .ok _, .error _ => isFalse (by simp)
  | .ok a, .ok b => decidable_of_iff (a = b) (by simp)

/-- sklearn LabelEncoder state after fit: the sorted distinct class list. -/
structure LabelEncoder where
  classes : List String
deriving DecidableEq

/-- Boolean lexicographic comparison of strings through their character
lists (an executable rendering of the order np.unique sorts by). -/
def strLeb (s t : String) : Bool := decide (s.data ≤ t.data)

/-- The order relation used to sort class lists. -/
def strLe (s t : String) : Prop := strLeb s t = true

instance : DecidableRel strLe := fun s t => instDecidableEqBool (strLeb s t) true

/-- LabelEncoder.fit: classes are the distinct input values in sorted
(lexicographic) order, as np.unique produces. -/
def LabelEncoder.fit (values : List String) : LabelEncoder :=
  ⟨List.insertionSort strLe values.dedup⟩

/-- Position of a value in a class list (np.searchsorted on the sorted
class list, equivalently the first index holding the value). -/
def strIndexOf (v : String) : List String → Nat
  | [] => 0
  | c :: rest => if v = c then 0 else strIndexOf v rest + 1

/-- LabelEncoder.transform on one value: the dense code of a known label,
a hard error on a label outside the fitted class list. -/
def LabelEncoder.transform (e : LabelEncoder) (v : String) : Except InferenceError Nat :=
  if v ∈ e.classes then .ok (strIndexOf v e.classes) else .error .unknownCategoryError

/-- Reverse lookup classes_[code], as used to decode a code to its label. -/
def LabelEncoder.decode (e : LabelEncoder) (code : Nat) : Option String :=
  e.classes.get? code

/-- The cleaned categorical column df[col].astype(str).str.strip() over the
rows surviving dropna. -/
def cleanColumn (rows : List Record) (f : CatField) : List String :=
  (dropAllEmpty rows).map (fun r => cleanCell (f.cell r))

/-- train_model.py lines 33-37: one encoder fit per categorical column. -/
def trainEncoder (rows : List Record) (f : CatField) : LabelEncoder :=
  LabelEncoder.fit (cleanColumn rows f)

/-- The in-place transformed integer value of a categorical field of one row
(the fit_transform output for that row). -/
def catCode (rows : List Record) (f : CatField) (r : Record) : Nat :=
  strIndexOf (cleanCell (f.cell r)) (trainEncoder rows f).classes

/-- train_model.py line 28 applied down the surviving rows: the regression
targets the model is fit on, as rationals. -/
def targetScores (rows : List Record) : List ℚ :=
  (dropAllEmpty rows).map (fun r => (target_score r : ℚ))

/-- train_model.py line 40: the fixed feature-column order, persisted in the
bundle as feature_names. -/
def feature_names : List String :=
  ["age_numeric", "edu_numeric", "emp_numeric", "gender", "skill_alignment",
   "skill_training", "job_seeking_status"]

/-- The numeric row df[features] hands to model.fit for one record, in the
order of feature_names. -/
def trainRowVector (rows : List Record) (r : Record) : List ℚ :=
  [(mapOrdinal .age_group r.age_group : ℚ),
   (mapOrdinal .education_level r.education_level : ℚ),
   (mapOrdinal .employment_status r.employment_status : ℚ),
   (catCode rows .gender r : ℚ),
   (catCode rows .skill_alignment r : ℚ),
   (catCode rows .skill_training r : ℚ),
   (catCode rows .job_seeking_status r : ℚ)]

/-- Mean of a list of rationals (the empty list yields 0). -/
def listMean (l : List ℚ) : ℚ := l.sum / l.length

/-- A fitted regression tree of the ensemble: an internal node routes on one
feature index against a threshold (left on value ≤ threshold), and a leaf
holds the indices of the training samples that fell into it, whose mean
target is the leaf value CART assigns. -/
inductive RegTree
  | leaf (samples : List Nat)
  | node (featIdx : Nat) (threshold : ℚ) (left right : RegTree)
deriving DecidableEq

/-- Prediction of one fitted tree on an input vector, given the training
targets y: route to a leaf, return the mean target of its samples. -/
def RegTree.predictTree (y : List ℚ) : RegTree → List ℚ → ℚ
  | .leaf samples, _ => listMean (samples.map (fun i => y.getD i 0))
  | .node j t l r, x => if x.getD j 0 ≤ t then l.predictTree y x else r.predictTree y x

/-- Well-formedness a fitted tree has by construction: every leaf is
nonempty and refers only to actual training samples. -/
def RegTree.wfTree (n : Nat) : RegTree → Bool
  | .leaf samples => (!samples.isEmpty) && samples.all (fun i => i < n)
  | .node _ _ l r => l.wfTree n && r.wfTree n

/-- A fitted RandomForestRegressor: its trees together with the training
targets y their leaf values are drawn from. -/
structure RegForest where
  trees : List RegTree
  y : List ℚ
deriving DecidableEq

/-- Well-formedness a fitted forest has by construction: at least one tree
(n_estimators = 100), every tree well formed over the training targets. -/
def RegForest.wf (F : RegForest) : Bool :=
  (!F.trees.isEmpty) && F.trees.all (fun t => t.wfTree F.y.length)

/-- Forest prediction: the mean of the per-tree predictions. -/
def RegForest.predict (F : RegForest) (x : List ℚ) : ℚ :=
  listMean (F.trees.map (fun t => t.predictTree F.y x))

/-- The pickled dict of train_model.py lines 48-56: model, the four fitted
encoders, the three ordinal maps, and the feature-name order. -/
structure Assets where
  model : RegForest
  encoders : CatField → LabelEncoder
  age_map : List (String × Nat)
  edu_map : List (String × Nat)
  emp_map : List (String × Nat)
  feature_names : List String

/-- The bundle the training script persists for a given training set, with
the forest the external fit produced. -/
def trainedAssets (rows : List Record) (model : RegForest) : Assets :=
  { model := model
    encoders := fun f => trainEncoder rows f
    age_map := age_map
    edu_map := edu_map
    emp_map := emp_map
    feature_names := feature_names }

/-- Outcome of opening and unpickling unemployment_model.pkl: either the
bundle, or any failure (missing file, corrupt blob). -/
inductive BlobReadResult
  | found (b : Assets)
  | failed

/-- app.py lines 39-45: load_assets returns the bundle, or None on any
exception while reading or unpickling. -/
def load_assets : BlobReadResult → Option Assets
  | .found b => some b
  | .failed => none

/-- What the prediction tab renders (app.py lines 103-133): the prediction
UI over loaded assets, or the error banner when assets is None. -/
inductive PredictionTabView
  | predictionUI (a : Assets)
  | assetsMissingError (msg : String)

/-- app.py lines 104 and 132-133: if assets: render the UI; else: st.error. -/
def renderPredictionTab : Option Assets → PredictionTabView
  | some a => .predictionUI a
  | none => .assetsMissingError "Model assets not found. Run the training script first."

/-- The seven selectbox values of the prediction tab (app.py lines 108-114). -/
structure Selections where
  age : String
  edu : String
  emp : String
  gen : String
  skl : String
  trn : String
  sk : String
deriving DecidableEq

/-- app.py line 108: the age menu offers the keys of the loaded age map. -/
def ageOptions (a : Assets) : List String := a.age_map.map Prod.fst

/-- app.py line 109: the education menu offers the keys of the loaded map. -/
def eduOptions (a : Assets) : List String := a.edu_map.map Prod.fst

/-- app.py line 110: the status menu offers the keys of the loaded map. -/
def empOptions (a : Assets) : List String := a.emp_map.map Prod.fst

/-- app.py lines 111-114: each categorical menu offers the fitted classes of
the corresponding loaded encoder. -/
def catOptions (a : Assets) (f : CatField) : List String := (a.encoders f).classes

/-- Direct dict indexing assets[map][key] (app.py line 117): the value for a
present key, a KeyError for an absent one. -/
def dictGet (m : List (String × Nat)) (k : String) : Except InferenceError Nat :=
  match lookupMap m k with
  | some v => .ok v
  | none => .error .keyError

/-- app.py lines 117-121: the inference input vector x_in, assembled from
the seven selections in the written order — three direct ordinal-map
indexings, then the four encoder transforms. -/
def x_in (a : Assets) (s : Selections) : Except InferenceError (List ℚ) := do
  let v₁ ← dictGet a.age_map s.age
  let v₂ ← dictGet a.edu_map s.edu
  let v₃ ← dictGet a.emp_map s.emp
  let g ← (a.encoders .gender).transform s.gen
  let k₁ ← (a.encoders .skill_alignment).transform s.skl
  let k₂ ← (a.encoders .skill_training).transform s.trn
  let k₃ ← (a.encoders .job_seeking_status).transform s.sk
  return [(v₁ : ℚ), (v₂ : ℚ), (v₃ : ℚ), (g : ℚ), (k₁ : ℚ), (k₂ : ℚ), (k₃ : ℚ)]

/-- app.py line 122: the predicted severity score for the selections. -/
def prediction (a : Assets) (s : Selections) : Except InferenceError ℚ :=
  (x_in a s).map (fun x => a.model.predict x)

/-! ### Encoder lemmas -/

lemma strLe_iff (s t : String) : strLe s t ↔ s ≤ t := by
  unfold strLe strLeb
  rw [decide_eq_true_iff]
  exact Iff.symm String.le_iff_toList_le

instance : IsTotal String strLe :=
  ⟨fun a b => by rw [strLe_iff, strLe_iff]; exact le_total a b⟩

instance : IsTrans String strLe :=
  ⟨fun a b c hab hbc => by
    rw [strLe_iff] at hab hbc ⊢
    exact le_trans hab hbc⟩

lemma fit_classes_sorted (values : List String) :
    (LabelEncoder.fit values).classes.Sorted strLe :=
  List.sorted_insertionSort strLe values.dedup

lemma fit_classes_nodup (values : List String) :
    (LabelEncoder.fit values).classes.Nodup :=
  ((List.perm_insertionSort strLe values.dedup).nodup_iff).mpr values.nodup_dedup

lemma mem_fit_classes {values : List String} {v : String} :
    v ∈ (LabelEncoder.fit values).classes ↔ v ∈ values := by
  unfold LabelEncoder.fit
  rw [(List.perm_insertionSort strLe values.dedup).mem_iff, List.mem_dedup]

lemma fit_classes_pairwise_lt (values : List String) :
    (LabelEncoder.fit values).classes.Pairwise (· < ·) := by
  have h := (fit_classes_sorted values).and (fit_classes_nodup values)
  exact h.imp (fun hab => lt_of_le_of_ne ((strLe_iff _ _).mp hab.1) hab.2)

lemma strIndexOf_lt_length {v : String} :
    ∀ {l : List String}, v ∈ l → strIndexOf v l < l.length := by
  intro l
  induction l with
  | nil => intro hv; cases hv
  | cons c rest ih =>
    intro hv
    rw [strIndexOf]
    by_cases h : v = c
    · rw [if_pos h]
      exact Nat.succ_pos _
    · rw [if_neg h, List.length_cons]
      exact Nat.succ_lt_succ (ih ((List.mem_cons.mp hv).resolve_left h))

lemma strIndexOf_get? {v : String} :
    ∀ {l : List String}, v ∈ l → l.get? (strIndexOf v l) = some v := by
  intro l
  induction l with
  | nil => intro hv; cases hv
  | cons c rest ih =>
    intro hv
    rw [strIndexOf]
    by_cases h : v = c
    · rw [if_pos h]
      simp [h]
    · rw [if_neg h]
      simpa using ih ((List.mem_cons.mp hv).resolve_left h)

lemma strIndexOf_lt_of_pairwise {a b : String} (hab : a < b) :
    ∀ {l : List String}, l.Pairwise (· < ·) → a ∈ l → b ∈ l →
      strIndexOf a l < strIndexOf b l := by
  intro l
  induction l with
  | nil => intro _ ha _; cases ha
  | cons c rest ih =>
    intro hp ha hb
    rw [strIndexOf, strIndexOf]
    by_cases hac : a = c
    · have hbc : ¬ b = c := fun hbceq => by
        rw [hac, hbceq] at hab
        exact lt_irrefl c hab
      rw [if_pos hac, if_neg hbc]
      exact Nat.succ_pos _
    · have hbc : ¬ b = c := by
        intro hbceq
        rcases List.mem_cons.mp ha with h' | h'
        · exact hac h'
        · have hca : c < a := (List.pairwise_cons.mp hp).1 a h'
          rw [hbceq] at hab
          exact lt_irrefl a (lt_trans hab hca)
      rw [if_neg hac, if_neg hbc]
      have ha' : a ∈ rest := (List.mem_cons.mp ha).resolve_left hac
      have hb' : b ∈ rest := (List.mem_cons.mp hb).resolve_left hbc
      exact Nat.succ_lt_succ (ih (List.pairwise_cons.mp hp).2 ha' hb')

lemma strIndexOf_surj :
    ∀ {l : List String}, l.Nodup → ∀ {k : Nat}, k < l.length →
      ∃ s ∈ l, strIndexOf s l = k := by
  intro l
  induction l with
  | nil => intro _ k hk; cases hk
  | cons c rest ih =>
    intro hn k hk
    cases k with
    | zero => exact ⟨c, List.mem_cons_self c rest, by rw [strIndexOf, if_pos rfl]⟩
    | succ k =>
      have hn' := List.nodup_cons.mp hn
      obtain ⟨s, hs, hidx⟩ :=
        ih hn'.2 (Nat.lt_of_succ_lt_succ (by simpa using hk))
      have hsc : ¬ s = c := fun h => hn'.1 (h ▸ hs)
      exact ⟨s, List.mem_cons_of_mem c hs, by rw [strIndexOf, if_neg hsc, hidx]⟩

lemma transform_of_mem {e : LabelEncoder} {v : String} (h : v ∈ e.classes) :
    e.transform v = .ok (strIndexOf v e.classes) := by
  unfold LabelEncoder.transform
  rw [if_pos h]

lemma transform_of_not_mem {e : LabelEncoder} {v : String} (h : v ∉ e.classes) :
    e.transform v = .error .unknownCategoryError := by
  unfold LabelEncoder.transform
  rw [if_neg h]

/-! ### Bound lemmas for the target scores and the forest -/

lemma listMean_bounds {l : List ℚ} {a b : ℚ} (hne : l ≠ [])
    (h : ∀ x ∈ l, a ≤ x ∧ x ≤ b) : a ≤ listMean l ∧ listMean l ≤ b := by
  have hlen : 0 < (l.length : ℚ) := by
    have := List.length_pos.mpr hne
    exact_mod_cast this
  have hsum_le : l.sum ≤ (l.length : ℚ) * b := by
    have := List.sum_le_card_nsmul l b (fun x hx => (h x hx).2)
    rwa [nsmul_eq_mul] at this
  have hle_sum : (l.length : ℚ) * a ≤ l.sum := by
    have := List.card_nsmul_le_sum l a (fun x hx => (h x hx).1)
    rwa [nsmul_eq_mul] at this
  constructor
  · rw [listMean, le_div_iff₀ hlen, mul_comm]
    exact hle_sum
  · rw [listMean, div_le_iff₀ hlen, mul_comm]
    exact hsum_le

lemma predictTree_bounds {y : List ℚ} {a b : ℚ}
    (hy : ∀ q ∈ y, a ≤ q ∧ q ≤ b) :
    ∀ {t : RegTree}, t.wfTree y.length = true → ∀ x,
      a ≤ t.predictTree y x ∧ t.predictTree y x ≤ b := by
  intro t
  induction t with
  | leaf samples =>
    intro hwf x
    rw [RegTree.predictTree]
    unfold RegTree.wfTree at hwf
    rw [Bool.and_eq_true] at hwf
    obtain ⟨hne, hall⟩ := hwf
    apply listMean_bounds
    · intro hmap
      rw [List.map_eq_nil_iff] at hmap
      rw [hmap] at hne
      simp at hne
    · intro q hq
      rw [List.mem_map] at hq
      obtain ⟨i, hi, rfl⟩ := hq
      have hilen : i < y.length :=
        of_decide_eq_true (List.all_eq_true.mp hall i hi)
      rw [List.getD_eq_getElem y 0 hilen]
      exact hy _ (List.getElem_mem hilen)
  | node j thr tl tr ihl ihr =>
    intro hwf x
    rw [RegTree.predictTree]
    unfold RegTree.wfTree at hwf
    rw [Bool.and_eq_true] at hwf
    split
    · exact ihl hwf.1 x
    · exact ihr hwf.2 x

lemma predict_bounds {F : RegForest} {a b : ℚ}
    (hwf : F.wf = true) (hy : ∀ q ∈ F.y, a ≤ q ∧ q ≤ b) (x : List ℚ) :
    a ≤ F.predict x ∧ F.predict x ≤ b := by
  unfold RegForest.wf at hwf
  rw [Bool.and_eq_true] at hwf
  obtain ⟨hne, hall⟩ := hwf
  unfold RegForest.predict
  apply listMean_bounds
  · intro hmap
    rw [List.map_eq_nil_iff] at hmap
    rw [hmap] at hne
    simp at hne
  · intro q hq
    rw [List.mem_map] at hq
    obtain ⟨t, ht, rfl⟩ := hq
    exact predictTree_bounds hy (List.all_eq_true.mp hall t ht) x

lemma target_score_bounds (r : Record) :
    1 ≤ target_score r ∧ target_score r ≤ 5 := by
  unfold target_score mapFillna
  cases r.issue_severity_perception with
  | none => simp
  | some s =>
    simp only [Option.some_bind, lookupMap, severity_map]
    split_ifs <;> simp

lemma targetScores_bounds {rows : List Record} {q : ℚ}
    (hq : q ∈ targetScores rows) : 1 ≤ q ∧ q ≤ 5 := by
  unfold targetScores at hq
  rw [List.mem_map] at hq
  obtain ⟨r, _, rfl⟩ := hq
  have h := target_score_bounds r
  exact ⟨by exact_mod_cast h.1, by exact_mod_cast h.2⟩

/-! ### Map-lookup lemmas -/

lemma lookupMap_eq_none_iff {m : List (String × Nat)} {s : String} :
    lookupMap m s = none ↔ s ∉ m.map Prod.fst := by
  induction m with
  | nil => simp [lookupMap]
  | cons p rest ih =>
    obtain ⟨k, v⟩ := p
    by_cases h : s = k
    · simp [lookupMap, h]
    · simp [lookupMap, h, ih]

lemma dictGet_ok_of_mem {m : List (String × Nat)} {s : String}
    (h : s ∈ m.map Prod.fst) :
    ∃ v, lookupMap m s = some v ∧ dictGet m s = .ok v := by
  cases hv : lookupMap m s with
  | none => exact absurd h (lookupMap_eq_none_iff.mp hv)
  | some v => exact ⟨v, rfl, by simp [dictGet, hv]⟩

lemma dictGet_error_of_not_mem {m : List (String × Nat)} {s : String}
    (h : s ∉ m.map Prod.fst) : dictGet m s = .error .keyError := by
  simp [dictGet, lookupMap_eq_none_iff.mpr h]

/-! ### Training-row and inference-vector agreement -/

lemma mem_trainEncoder_classes {rows : List Record} {f : CatField} {r : Record}
    (hr : r ∈ dropAllEmpty rows) :
    cleanCell (f.cell r) ∈ (trainEncoder rows f).classes := by
  unfold trainEncoder
  exact mem_fit_classes.mpr (List.mem_map_of_mem _ hr)

lemma x_in_trainedAssets_row (rows : List Record) (F : RegForest) (r : Record)
    (hr : r ∈ dropAllEmpty rows)
    (A E M : String) (nA nE nM : Nat)
    (hA : r.age_group = some A) (hA2 : lookupMap age_map A = some nA)
    (hE : r.education_level = some E) (hE2 : lookupMap edu_map E = some nE)
    (hM : r.employment_status = some M) (hM2 : lookupMap emp_map M = some nM) :
    x_in (trainedAssets rows F)
      ⟨A, E, M, cleanCell (CatField.cell .gender r),
       cleanCell (CatField.cell .skill_alignment r),
       cleanCell (CatField.cell .skill_training r),
       cleanCell (CatField.cell .job_seeking_status r)⟩ =
      .ok (trainRowVector rows r) := by
  have hg := transform_of_mem (mem_trainEncoder_classes (f := .gender) hr)
  have hs := transform_of_mem (mem_trainEncoder_classes (f := .skill_alignment) hr)
  have ht := transform_of_mem (mem_trainEncoder_classes (f := .skill_training) hr)
  have hj := transform_of_mem (mem_trainEncoder_classes (f := .job_seeking_status) hr)
  simp only [x_in, trainedAssets, dictGet, hA2, hE2, hM2, hg, hs, ht, hj,
    bind, Except.bind, pure, Except.pure]
  simp only [trainRowVector, catCode, mapOrdinal, mapFillna, OrdinalField.toMap,
    OrdinalField.defaultCode, OrdinalField.cell, hA, hE, hM, Option.some_bind,
    hA2, hE2, hM2, Option.getD_some]

/-! ### Sample data for concrete instantiations -/

/-- A concrete survey row matching the end-to-end example of the spec. -/
def sampleRow1 : Record :=
  { age_group := some "18–24", education_level := some "Undergraduate",
    employment_status := some "Employed", gender := some "Male",
    skill_alignment := some "Yes", skill_training := some "No",
    job_seeking_status := some "Yes", issue_severity_perception := some "Yes",
    proposed_solution := some "More jobs" }

/-- A second concrete survey row. -/
def sampleRow2 : Record :=
  { age_group := some "25–34", education_level := some "Postgraduate",
    employment_status := some "Unemployed", gender := some "Female",
    skill_alignment := some "No", skill_training := some "Yes",
    job_seeking_status := some "No", issue_severity_perception := some "No",
    proposed_solution := none }

/-- A two-row concrete training set. -/
def sampleRows : List Record := [sampleRow1, sampleRow2]

/-- A concrete fitted forest over the sample training targets: one tree whose
single leaf holds both training samples. -/
def sampleForest : RegForest :=
  { trees := [RegTree.leaf [0, 1]], y := targetScores sampleRows }

/-! ### Claims -/

/-- C1: for every fitted categorical encoder and every input value outside
its fitted label set, the encode operation fails with the unknown-category
error — a hard error, never a default substitution. -/
theorem C1_unknown_category_hard_error (values : List String) (v : String)
    (h : v ∉ (LabelEncoder.fit values).classes) :
    (LabelEncoder.fit values).transform v = .error .unknownCategoryError ∧
    ∀ n, (LabelEncoder.fit values).transform v ≠ .ok n := by
  refine ⟨transform_of_not_mem h, ?_⟩
  intro n hn
  rw [transform_of_not_mem h] at hn
  exact Except.noConfusion hn

/-- Witness for C1 at a concrete fitted encoder and the label of the spec's
test vignette. -/
theorem C1_witness :
    (LabelEncoder.fit ["Male", "Female"]).transform "never-seen-label" =
      .error .unknownCategoryError :=
  (C1_unknown_category_hard_error ["Male", "Female"] "never-seen-label"
    (by decide)).1

/-- C6: fitting a categorical column first strips and string-coerces each
cell; the classes are exactly the normalized values, codes are assigned in
lexicographic order (strictly monotone on the fitted set), and the codes of
the m classes are exactly 0..m-1. -/
theorem C6_fit_sorted_dense_codes (cells : List Cell) (a b : String)
    (ha : a ∈ (LabelEncoder.fit (cells.map cleanCell)).classes)
    (hb : b ∈ (LabelEncoder.fit (cells.map cleanCell)).classes)
    (hab : a < b) :
    (∀ s, s ∈ (LabelEncoder.fit (cells.map cleanCell)).classes ↔
      ∃ c ∈ cells, cleanCell c = s) ∧
    (∃ i j, (LabelEncoder.fit (cells.map cleanCell)).transform a = .ok i ∧
      (LabelEncoder.fit (cells.map cleanCell)).transform b = .ok j ∧ i < j) ∧
    (∀ s, s ∈ (LabelEncoder.fit (cells.map cleanCell)).classes →
      strIndexOf s (LabelEncoder.fit (cells.map cleanCell)).classes <
        (LabelEncoder.fit (cells.map cleanCell)).classes.length) ∧
    (∀ k, k < (LabelEncoder.fit (cells.map cleanCell)).classes.length →
      ∃ s ∈ (LabelEncoder.fit (cells.map cleanCell)).classes,
        (LabelEncoder.fit (cells.map cleanCell)).transform s = .ok k) := by
  refine ⟨?_, ?_, ?_, ?_⟩
  · intro s
    rw [mem_fit_classes, List.mem_map]
  · exact ⟨_, _, transform_of_mem ha, transform_of_mem hb,
      strIndexOf_lt_of_pairwise hab (fit_classes_pairwise_lt _) ha hb⟩
  · intro s hs
    exact strIndexOf_lt_length hs
  · intro k hk
    obtain ⟨s, hs, hidx⟩ := strIndexOf_surj (fit_classes_nodup _) hk
    exact ⟨s, hs, by rw [transform_of_mem hs, hidx]⟩

/-- Witness for C6 at a concrete column holding whitespace, a missing cell
and a duplicate. -/
theorem C6_witness :
    ∃ i j,
      (LabelEncoder.fit (([some " b ", some "a", none, some "a"] : List Cell).map
        cleanCell)).transform "a" = .ok i ∧
      (LabelEncoder.fit (([some " b ", some "a", none, some "a"] : List Cell).map
        cleanCell)).transform "b" = .ok j ∧ i < j :=
  (C6_fit_sorted_dense_codes [some " b ", some "a", none, some "a"] "a" "b"
    (by decide) (by decide) (by rw [String.lt_iff_toList_lt]; decide)).2.1

/-- C7: for every label in a fitted encoder's class set, decoding the code
the encoder assigns to it returns the label itself. -/
theorem C7_decode_transform_roundtrip (values : List String) (lbl : String)
    (h : lbl ∈ (LabelEncoder.fit values).classes) :
    ∃ c, (LabelEncoder.fit values).transform lbl = .ok c ∧
      (LabelEncoder.fit values).decode c = some lbl := by
  refine ⟨strIndexOf lbl (LabelEncoder.fit values).classes, transform_of_mem h, ?_⟩
  unfold LabelEncoder.decode
  exact strIndexOf_get? h

/-- Witness for C7 at a concrete fitted encoder and fitted label. -/
theorem C7_witness :
    ∃ c, (LabelEncoder.fit ["Male", "Female"]).transform "Male" = .ok c ∧
      (LabelEncoder.fit ["Male", "Female"]).decode c = some "Male" :=
  C7_decode_transform_roundtrip ["Male", "Female"] "Male" (by decide)

/-- C9: a missing value in a categorical training column is coerced to the
literal string "nan" (not to "Unknown"), which becomes an ordinary fitted
label of that column's encoder, with its own code. -/
theorem C9_missing_categorical_becomes_nan (rows : List Record) (f : CatField)
    (r : Record) (hr : r ∈ dropAllEmpty rows) (hmiss : f.cell r = none) :
    cleanCell (f.cell r) = "nan" ∧ ("nan" : String) ≠ "Unknown" ∧
    "nan" ∈ (trainEncoder rows f).classes ∧
    (trainEncoder rows f).transform "nan" =
      .ok (strIndexOf "nan" (trainEncoder rows f).classes) := by
  have h1 : cleanCell (f.cell r) = "nan" := by rw [hmiss]; rfl
  have h2 : "nan" ∈ (trainEncoder rows f).classes := h1 ▸ mem_trainEncoder_classes hr
  exact ⟨h1, by decide, h2, transform_of_mem h2⟩

/-- A concrete row whose gender cell is missing. -/
def rowMissingGender : Record :=
  { age_group := some "18–24", education_level := some "Undergraduate",
    employment_status := some "Employed", gender := none,
    skill_alignment := some "Yes", skill_training := some "No",
    job_seeking_status := some "Yes", issue_severity_perception := some "Maybe",
    proposed_solution := none }

/-- Witness for C9 at a concrete training set with a missing gender cell. -/
theorem C9_witness :
    "nan" ∈ (trainEncoder [rowMissingGender] .gender).classes ∧
    (trainEncoder [rowMissingGender] .gender).transform "nan" =
      .ok (strIndexOf "nan" (trainEncoder [rowMissingGender] .gender).classes) := by
  have h := C9_missing_categorical_becomes_nan [rowMissingGender] .gender
    rowMissingGender (by decide) rfl
  exact ⟨h.2.2.1, h.2.2.2⟩

/-- C2 counterexample: the claim fails on the inference side. The label
"65+" is outside the age map; the training-side mapping defaults it to 1,
but the inference pipeline's direct dict indexing raises a KeyError instead
of returning the default code. -/
theorem C2_counterexample :
    mapOrdinal .age_group (some "65+") = 1 ∧
    dictGet age_map "65+" = .error .keyError ∧
    dictGet age_map "65+" ≠ .ok 1 := by decide

/-- C2 amended: the training-side ordinal mapping returns the mapped code
for labels in the static map and the field's default (age→1, education→2,
employment→1) otherwise, never raising; the inference-side lookup is direct
dict indexing, which returns the mapped code for keys of the map but fails
with a KeyError (no default) for any other label. -/
theorem C2_amended_default_vs_keyerror (f : OrdinalField) (lbl : String) :
    mapOrdinal f none = f.defaultCode ∧
    (lbl ∉ f.toMap.map Prod.fst →
      mapOrdinal f (some lbl) = f.defaultCode ∧
      dictGet f.toMap lbl = .error .keyError) ∧
    (∀ v, lookupMap f.toMap lbl = some v →
      mapOrdinal f (some lbl) = v ∧ dictGet f.toMap lbl = .ok v) := by
  refine ⟨rfl, ?_, ?_⟩
  · intro h
    refine ⟨?_, dictGet_error_of_not_mem h⟩
    unfold mapOrdinal mapFillna
    rw [Option.some_bind, lookupMap_eq_none_iff.mpr h]
    rfl
  · intro v hv
    refine ⟨?_, by simp [dictGet, hv]⟩
    unfold mapOrdinal mapFillna
    rw [Option.some_bind, hv]
    rfl

/-- Witness for C2 amended, exercising both the unknown-label branch and the
known-label branch on the age field. -/
theorem C2_amended_witness :
    mapOrdinal .age_group (some "never-seen") = 1 ∧
    dictGet age_map "never-seen" = .error .keyError ∧
    mapOrdinal .age_group (some "25–34") = 2 ∧
    dictGet age_map "25–34" = .ok 2 := by
  have hu := (C2_amended_default_vs_keyerror .age_group "never-seen").2.1 (by decide)
  have hk := (C2_amended_default_vs_keyerror .age_group "25–34").2.2 2 (by decide)
  exact ⟨hu.1, hu.2, hk.1, hk.2⟩

/-- A concrete row with a missing gender cell and a blank skill cell. -/
def blankRow : Record :=
  { age_group := some "18–24", education_level := some "Undergraduate",
    employment_status := some "Employed", gender := none,
    skill_alignment := some "   ", skill_training := some "No",
    job_seeking_status := some "Yes", issue_severity_perception := some "Maybe",
    proposed_solution := none }

/-- C3 counterexample: the claim fails on the training pipeline. A missing
textual entry is coerced to the string "nan", not replaced with the
sentinel "Unknown", and a present-but-blank entry strips to the empty
string, so a cleaned textual field can be empty. -/
theorem C3_counterexample :
    cleanColumn [blankRow] .gender = ["nan"] ∧
    ("nan" : String) ≠ "Unknown" ∧
    cleanColumn [blankRow] .skill_alignment = [""] := by decide

/-- C3 amended: after the Training Pipeline's cleaning, each categorical
cell value is strip(str(cell)): a missing entry becomes the non-empty
string "nan" (not "Unknown") and a present entry is whitespace-stripped —
which leaves the empty string for blank entries. -/
theorem C3_amended_cleaning (rows : List Record) (f : CatField) (r : Record)
    (hr : r ∈ dropAllEmpty rows) :
    cleanCell (f.cell r) ∈ cleanColumn rows f ∧
    (f.cell r = none → cleanCell (f.cell r) = "nan" ∧ cleanCell (f.cell r) ≠ "") ∧
    (∀ s, f.cell r = some s → cleanCell (f.cell r) = stripStr s) := by
  refine ⟨List.mem_map_of_mem _ hr, ?_, ?_⟩
  · intro h
    rw [h]
    exact ⟨rfl, by decide⟩
  · intro s h
    rw [h, cleanCell]

/-- Witness for C3 amended at the concrete row with a missing gender cell. -/
theorem C3_amended_witness :
    cleanCell (CatField.cell .gender blankRow) = "nan" ∧
    cleanCell (CatField.cell .gender blankRow) ≠ "" :=
  (C3_amended_cleaning [blankRow] .gender blankRow (by decide)).2.1 rfl

/-- C8: loading a missing or corrupt bundle yields the None sentinel rather
than raising, and the prediction tab then renders the assets-missing error
banner instead of the prediction UI. -/
theorem C8_load_failure_graceful :
    load_assets .failed = none ∧
    renderPredictionTab (load_assets .failed) =
      .assetsMissingError "Model assets not found. Run the training script first." :=
  ⟨rfl, rfl⟩

/-- C4: with a forest fitted on this training set's targets (severity-map
values with default 3), every feature vector the inference pipeline
assembles is scored within [1, 5], and prediction on selections matching a
training row succeeds with a bounded score. -/
theorem C4_prediction_bounded_and_total (rows : List Record) (F : RegForest)
    (r : Record) (hr : r ∈ dropAllEmpty rows)
    (hwf : F.wf = true) (hy : F.y = targetScores rows)
    (A E M : String) (nA nE nM : Nat)
    (hA : r.age_group = some A) (hA2 : lookupMap age_map A = some nA)
    (hE : r.education_level = some E) (hE2 : lookupMap edu_map E = some nE)
    (hM : r.employment_status = some M) (hM2 : lookupMap emp_map M = some nM) :
    (∀ s v, x_in (trainedAssets rows F) s = .ok v →
      1 ≤ F.predict v ∧ F.predict v ≤ 5) ∧
    (∃ p, prediction (trainedAssets rows F)
        ⟨A, E, M, cleanCell (CatField.cell .gender r),
         cleanCell (CatField.cell .skill_alignment r),
         cleanCell (CatField.cell .skill_training r),
         cleanCell (CatField.cell .job_seeking_status r)⟩ = .ok p ∧
      1 ≤ p ∧ p ≤ 5) := by
  have hbound : ∀ x, 1 ≤ F.predict x ∧ F.predict x ≤ 5 := by
    intro x
    apply predict_bounds hwf
    intro q hq
    rw [hy] at hq
    exact targetScores_bounds hq
  constructor
  · intro s v _
    exact hbound v
  · refine ⟨F.predict (trainRowVector rows r), ?_,
      (hbound _).1, (hbound _).2⟩
    unfold prediction
    rw [x_in_trainedAssets_row rows F r hr A E M nA nE nM hA hA2 hE hE2 hM hM2]
    rfl

/-- Witness for C4 at the concrete two-row training set, a concrete fitted
forest, and selections matching the first training row. -/
theorem C4_witness :
    ∃ p, prediction (trainedAssets sampleRows sampleForest)
        ⟨"18–24", "Undergraduate", "Employed",
         cleanCell (CatField.cell .gender sampleRow1),
         cleanCell (CatField.cell .skill_alignment sampleRow1),
         cleanCell (CatField.cell .skill_training sampleRow1),
         cleanCell (CatField.cell .job_seeking_status sampleRow1)⟩ = .ok p ∧
      1 ≤ p ∧ p ≤ 5 :=
  (C4_prediction_bounded_and_total sampleRows sampleForest sampleRow1
    (by decide) (by decide) rfl "18–24" "Undergraduate" "Employed" 1 2 2
    rfl (by decide) rfl (by decide) rfl (by decide)).2

/-- C5: the bundle records the fixed seven-field order [age-ordinal,
education-ordinal, employment-ordinal, gender, skill-alignment,
skill-training, job-seeking]; the training row vector lists its components
in that order, and the inference pipeline assembles exactly that vector for
selections matching a training row. -/
theorem C5_feature_order_agreement (rows : List Record) (F : RegForest)
    (r : Record) (hr : r ∈ dropAllEmpty rows)
    (A E M : String) (nA nE nM : Nat)
    (hA : r.age_group = some A) (hA2 : lookupMap age_map A = some nA)
    (hE : r.education_level = some E) (hE2 : lookupMap edu_map E = some nE)
    (hM : r.employment_status = some M) (hM2 : lookupMap emp_map M = some nM) :
    (trainedAssets rows F).feature_names =
      ["age_numeric", "edu_numeric", "emp_numeric", "gender",
       "skill_alignment", "skill_training", "job_seeking_status"] ∧
    trainRowVector rows r =
      [(mapOrdinal .age_group r.age_group : ℚ),
       (mapOrdinal .education_level r.education_level : ℚ),
       (mapOrdinal .employment_status r.employment_status : ℚ),
       (catCode rows .gender r : ℚ), (catCode rows .skill_alignment r : ℚ),
       (catCode rows .skill_training r : ℚ),
       (catCode rows .job_seeking_status r : ℚ)] ∧
    x_in (trainedAssets rows F)
      ⟨A, E, M, cleanCell (CatField.cell .gender r),
       cleanCell (CatField.cell .skill_alignment r),
       cleanCell (CatField.cell .skill_training r),
       cleanCell (CatField.cell .job_seeking_status r)⟩ =
      .ok (trainRowVector rows r) :=
  ⟨rfl, rfl, x_in_trainedAssets_row rows F r hr A E M nA nE nM hA hA2 hE hE2 hM hM2⟩

/-- Witness for C5 at the concrete training set and its first row. -/
theorem C5_witness :
    x_in (trainedAssets sampleRows sampleForest)
      ⟨"18–24", "Undergraduate", "Employed",
       cleanCell (CatField.cell .gender sampleRow1),
       cleanCell (CatField.cell .skill_alignment sampleRow1),
       cleanCell (CatField.cell .skill_training sampleRow1),
       cleanCell (CatField.cell .job_seeking_status sampleRow1)⟩ =
      .ok (trainRowVector sampleRows sampleRow1) :=
  (C5_feature_order_agreement sampleRows sampleForest sampleRow1
    (by decide) "18–24" "Undergraduate" "Employed" 1 2 2
    rfl (by decide) rfl (by decide) rfl (by decide)).2.2

/-- C10: the selection menus are populated from the loaded bundle itself
(the ordinal maps' key sets and each encoder's class list); for any
selections drawn from those menus, every lookup and transform of the
prediction step succeeds — the unknown-label branches are unreachable from
the menus. -/
theorem C10_menu_selections_safe (a : Assets) (s : Selections)
    (h1 : s.age ∈ ageOptions a) (h2 : s.edu ∈ eduOptions a)
    (h3 : s.emp ∈ empOptions a) (h4 : s.gen ∈ catOptions a .gender)
    (h5 : s.skl ∈ catOptions a .skill_alignment)
    (h6 : s.trn ∈ catOptions a .skill_training)
    (h7 : s.sk ∈ catOptions a .job_seeking_status) :
    (∃ v, x_in a s = .ok v) ∧ ∃ p, prediction a s = .ok p := by
  obtain ⟨vA, -, dA⟩ := dictGet_ok_of_mem h1
  obtain ⟨vE, -, dE⟩ := dictGet_ok_of_mem h2
  obtain ⟨vM, -, dM⟩ := dictGet_ok_of_mem h3
  have h4' : s.gen ∈ (a.encoders .gender).classes := h4
  have h5' : s.skl ∈ (a.encoders .skill_alignment).classes := h5
  have h6' : s.trn ∈ (a.encoders .skill_training).classes := h6
  have h7' : s.sk ∈ (a.encoders .job_seeking_status).classes := h7
  have hx : x_in a s = .ok
      [(vA : ℚ), (vE : ℚ), (vM : ℚ),
       (strIndexOf s.gen (a.encoders .gender).classes : ℚ),
       (strIndexOf s.skl (a.encoders .skill_alignment).classes : ℚ),
       (strIndexOf s.trn (a.encoders .skill_training).classes : ℚ),
       (strIndexOf s.sk (a.encoders .job_seeking_status).classes : ℚ)] := by
    simp only [x_in, dA, dE, dM, transform_of_mem h4', transform_of_mem h5',
      transform_of_mem h6', transform_of_mem h7', bind, Except.bind, pure,
      Except.pure]
  have hp : prediction a s = .ok (a.model.predict
      [(vA : ℚ), (vE : ℚ), (vM : ℚ),
       (strIndexOf s.gen (a.encoders .gender).classes : ℚ),
       (strIndexOf s.skl (a.encoders .skill_alignment).classes : ℚ),
       (strIndexOf s.trn (a.encoders .skill_training).classes : ℚ),
       (strIndexOf s.sk (a.encoders .job_seeking_status).classes : ℚ)]) := by
    unfold prediction
    rw [hx]
    rfl
  exact ⟨⟨_, hx⟩, ⟨_, hp⟩⟩

/-- Witness for C10 at a concrete loaded bundle and menu selections. -/
theorem C10_witness :
    (∃ v, x_in (trainedAssets sampleRows sampleForest)
      ⟨"25–34", "Postgraduate", "Unemployed", "Female", "No", "Yes", "No"⟩ = .ok v) ∧
    ∃ p, prediction (trainedAssets sampleRows sampleForest)
      ⟨"25–34", "Postgraduate", "Unemployed", "Female", "No", "Yes", "No"⟩ = .ok p :=
  C10_menu_selections_safe (trainedAssets sampleRows sampleForest)
    ⟨"25–34", "Postgraduate", "Unemployed", "Female", "No", "Yes", "No"⟩
    (by decide) (by decide) (by decide) (by decide) (by decide) (by decide)
    (by decide)
